import Mathlib

/-!
Shallow embedding of `src/components/CustomSelect.tsx` (react-js-cron fork).

Embedded from the source:
* the render-time display formatter (the IIFE at lines 343-461, with its
  local `formatValue`, `hasConsistentInterval` and the consecutive-run
  partitioning loop);
* the click handlers `doubleClick` (lines 218-236) and `onOptionClick`
  (lines 239-285) together with the `clicksRef` buffer, as a state-passing
  step function emitting `setValue` commits.

Modelled from the spec (their code is imported from `../converter` /
`../locale` and is not under `src/`): the parser `specParse`, the
normalization `normalize`, and the `DEFAULT_LOCALE_EN` fallback strings.
-/

namespace ReactJsCron

/-- The `CronType` union from `../types`: the five unit kinds
`'minutes' | 'hours' | 'month-days' | 'months' | 'week-days'`. -/
inductive CronType
  | minutes
  | hours
  | monthDays
  | months
  | weekDays
deriving DecidableEq, Repr

/-- The `Unit` shape used by `CustomSelect`: a kind plus the numeric
domain `[min, max]`. -/
structure CronUnit where
  type : CronType
  min : Int
  max : Int
deriving DecidableEq, Repr

/-- The `clockFormat` prop: `'12-hour-clock' | '24-hour-clock'`
(optional at the call sites, hence wrapped in `Option` there). -/
inductive ClockFormat
  | twelveHour
  | twentyFourHour
deriving DecidableEq, Repr

/-- The `leadingZero` prop: `boolean | LeadingZeroType[] | undefined`. -/
inductive LeadingZeroOpt
  | undef
  | flag (b : Bool)
  | kinds (l : List CronType)
deriving DecidableEq, Repr

/-- The formatting-relevant props of `CustomSelect`. -/
structure SelectConfig where
  humanizeLabels : Bool
  leadingZero : LeadingZeroOpt
  clockFormat : Option ClockFormat
deriving DecidableEq, Repr

/-- The locale fields read by the display formatter (the `alt*` arrays and
the per-kind empty placeholders). -/
structure Locale where
  altWeekDays : List String
  altMonths : List String
  emptyHours : String
  emptyMinutes : String
  emptyMonthDays : String
  emptyWeekDays : String
  emptyMonths : String
  selectText : String
deriving DecidableEq, Repr

/-- JS `a || b` on strings: the empty string is falsy, every other string
is truthy (models `locale.emptyX || DEFAULT_LOCALE_EN.emptyX`). -/
def jsOr (a b : String) : String :=
  if a = "" then b else a

/-- `isLeadingZeroType` (source lines 358-359): the kinds that may take a
leading zero. -/
def isLeadingZeroType : CronType → Bool
  | .monthDays => true
  | .hours => true
  | .minutes => true
  | _ => false

/-- `leadingZero === true` (only the literal boolean `true` passes). -/
def leadingZeroIsTrue : LeadingZeroOpt → Bool
  | .flag true => true
  | _ => false

/-- `shouldAddLeadingZero` as computed inside the local `formatValue`
(source lines 361-364): literal-`true` flag, or a kind array containing the
unit's kind, or 24-hour clock on hours/minutes. -/
def shouldAddLZ (c : SelectConfig) (t : CronType) : Bool :=
  (isLeadingZeroType t && leadingZeroIsTrue c.leadingZero)
  || (match c.leadingZero with
      | .kinds l => isLeadingZeroType t && l.contains t
      | _ => false)
  || (decide (c.clockFormat = some ClockFormat.twentyFourHour)
      && (decide (t = CronType.hours) || decide (t = CronType.minutes)))

/-- JS `.slice(-n)` on a string: the last `n` characters (the whole string
when it is shorter than `n`). -/
def sliceLast (s : String) (n : Nat) : String :=
  String.mk (s.data.drop (s.data.length - n))

/-- JS array indexing with an `Int` index: an out-of-range or negative
index yields `undefined`; the claims never exercise that branch, so the
JS `undefined` is modelled by a sentinel string. -/
def intNth (l : List String) (i : Int) : String :=
  if i < 0 then "undefined" else ((l.get? i.toNat).getD "undefined")

/-- The local `formatValue` defined inside the render IIFE (source lines
357-389): 12-hour clock handling for hours, leading zero, and humanized
week-day / month names (`humanizeLabels && locale` — `locale` is an object
and hence always truthy). -/
def formatValueLocal (val : Int) (u : CronUnit) (c : SelectConfig) (loc : Locale) : String :=
  let salz := shouldAddLZ c u.type
  if u.type = CronType.hours ∧ c.clockFormat = some ClockFormat.twelveHour then
    let hour := if val = 0 then (12 : Int) else if val > 12 then val - 12 else val
    let ampm := if val ≥ 12 then "PM" else "AM"
    if salz = true then sliceLast ("0" ++ toString hour ++ ampm) 6
    else toString hour ++ ampm
  else
    let numericValue := if salz = true ∧ val < 10 then "0" ++ toString val else toString val
    if c.humanizeLabels = true then
      if u.type = CronType.weekDays then
        intNth loc.altWeekDays (if val = 7 then 0 else val)
      else if u.type = CronType.months then
        intNth loc.altMonths (val - 1)
      else numericValue
    else numericValue

/-- The result record of `hasConsistentInterval` (source lines 405-423);
the source's `end` field is named `stop` (`end` is a Lean keyword). -/
structure IntervalCheck where
  isValid : Bool
  interval : Int
  start : Int
  stop : Int
deriving DecidableEq, Repr

/-- Models the loop `for (let i = start; i <= stop; i += step) expected.push(i)`
(source lines 413-415).  The loop is reached only with `step > 1` (guarded by
`hasConsistentInterval`), where it pushes `start + step*j` for
`j = 0 .. (stop-start)/step` when `start ≤ stop` and nothing otherwise; for
`step ≤ 0` the loop would not terminate — that case is unreachable and
modelled as `[]`. -/
def stepRange (start stop step : Int) : List Int :=
  if step ≤ 0 then []
  else if stop < start then []
  else (List.range (((stop - start).toNat / step.toNat) + 1)).map
    (fun i : Nat => start + step * (i : Int))

/-- `hasConsistentInterval` (source lines 405-423): fewer than 3 values is
invalid; `interval = values[1] - values[0]` must exceed 1; the values must
equal the list produced by stepping from `values[0]` to the last value
(the source compares via `JSON.stringify`, i.e. list equality). The
pattern match encodes the `values.length < 3` guard and the safe indexing
of `values[0]`, `values[1]`, `values[values.length - 1]`. -/
def hasConsistentInterval (values : List Int) : IntervalCheck :=
  match values with
  | v0 :: v1 :: v2 :: rest =>
    let interval := v1 - v0
    if interval ≤ 1 then ⟨false, 0, 0, 0⟩
    else
      let start := v0
      let stop := (v0 :: v1 :: v2 :: rest).getLastD 0
      let expected := stepRange start stop interval
      ⟨decide (v0 :: v1 :: v2 :: rest = expected), interval, start, stop⟩
  | _ => ⟨false, 0, 0, 0⟩

/-- The run-partitioning loop body (source lines 436-451): `prev` is the
previously consumed value, `cur` the current run under construction. -/
def consecutiveRunsAux (prev : Int) (cur : List Int) : List Int → List (List Int)
  | [] => [cur]
  | x :: xs =>
    if x = prev + 1 then consecutiveRunsAux x (cur ++ [x]) xs
    else cur :: consecutiveRunsAux x [x] xs

/-- Partition a sorted list into maximal runs of consecutive integers
(source lines 436-451).  The empty case is unreachable at the call site
(the caller has at least two values). -/
def consecutiveRuns : List Int → List (List Int)
  | [] => []
  | x :: xs => consecutiveRunsAux x [x] xs

/-- `[...value].sort((a, b) => a - b)`: numeric ascending sort. -/
def sortValues (l : List Int) : List Int :=
  List.insertionSort (· ≤ ·) l

/-- Modelled from the spec: `DEFAULT_LOCALE_EN` comes from `../locale`,
which is not under `src/`.  The exact strings are immaterial to every
claim (theorems about placeholders quantify over the locale); this is one
concrete representative with nonempty placeholder texts. -/
def DEFAULT_LOCALE_EN : Locale :=
  { altWeekDays := ["SUN", "MON", "TUE", "WED", "THU", "FRI", "SAT"]
    altMonths := ["JAN", "FEB", "MAR", "APR", "MAY", "JUN", "JUL", "AUG", "SEP", "OCT", "NOV", "DEC"]
    emptyHours := "every hour"
    emptyMinutes := "every minute"
    emptyMonthDays := "every day of the month"
    emptyWeekDays := "every day of the week"
    emptyMonths := "every month"
    selectText := "Select" }

/-- The display formatter: the IIFE rendered inside the collapsed button
(source lines 343-461).  `value` is the `number[]` prop (the
`typeof value === 'number'` branch at line 391 is unreachable for an
array prop and is omitted).  Order of rules, as in the source: empty →
per-kind placeholder with `DEFAULT_LOCALE_EN` fallback; single value
(`> 1` → `every …`); consistent-interval check (with the `every 2`
degenerate cases for hours and week-days); otherwise comma-joined
consecutive runs. -/
def displayFormat (value : List Int) (u : CronUnit) (c : SelectConfig) (loc : Locale) : String :=
  if value = [] then
    match u.type with
    | .hours => jsOr loc.emptyHours DEFAULT_LOCALE_EN.emptyHours
    | .minutes => jsOr loc.emptyMinutes DEFAULT_LOCALE_EN.emptyMinutes
    | .monthDays => jsOr loc.emptyMonthDays DEFAULT_LOCALE_EN.emptyMonthDays
    | .weekDays => jsOr loc.emptyWeekDays DEFAULT_LOCALE_EN.emptyWeekDays
    | .months => jsOr loc.emptyMonths DEFAULT_LOCALE_EN.emptyMonths
  else if value.length = 1 then
    let val := value.headI
    if val > 1 then "every " ++ formatValueLocal val u c loc
    else formatValueLocal val u c loc
  else
    let sortedValues := sortValues value
    let r := hasConsistentInterval sortedValues
    if r.isValid = true then
      if u.type = CronType.hours ∧ r.interval = 2 then "every 2"
      else if u.type = CronType.weekDays ∧ r.interval = 2 then "every 2"
      else
        formatValueLocal r.start u c loc ++ "-" ++ formatValueLocal r.stop u c loc
          ++ "/" ++ toString r.interval
    else
      let ranges := consecutiveRuns sortedValues
      String.intercalate ","
        (ranges.map (fun range =>
          if range.length = 1 then formatValueLocal range.headI u c loc
          else
            formatValueLocal range.headI u c loc ++ "-"
              ++ formatValueLocal (range.getLastD 0) u c loc))

/-- Option tokens as generated by the option catalog (source lines
97-155): every `option.value` string is either the decimal digits of an
integer (`i.toString()`) or a periodic pseudo-token `*/i`. -/
inductive Token
  | num (n : Int)
  | periodic (n : Int)
deriving DecidableEq, Repr

/-- The option token's string form (`option.value`). -/
def tokenText : Token → String
  | .num n => toString n
  | .periodic n => "*/" ++ toString n

/-- JS `Number(value)` on a raw option token (source line 224): the
decimal string of an integer parses to that integer; `Number("*/N")` is
`NaN`, modelled as `none`. -/
def jsNumberRaw : Token → Option Int
  | .num n => some n
  | .periodic _ => none

/-- JS `Number(value.replace(/^\*\//, ''))` (source lines 198 and 255):
the `*/` prefix is stripped first, so both token shapes parse. -/
def jsNumberStripped : Token → Option Int
  | .num n => some n
  | .periodic n => some n

/-- A committed selection entry.  `setValue` is declared to take
`number[]`, but `doubleClick` casts and commits a string entry
(`setValue(["*/N"] as (number | string)[])`, source line 230), so a
committed value is an integer or a string. -/
inductive JsVal
  | num (n : Int)
  | str (s : String)
deriving DecidableEq, Repr

/-- One entry of the `clicksRef` buffer (the `Clicks` type from
`../types`): the clicked option token and its `Date.now()` timestamp. -/
structure ClickEntry where
  value : Token
  timestamp : Int
deriving DecidableEq, Repr

/-- The behaviour-relevant props of the click handlers.  `modeIsSingle`
models `mode === 'single'` (the only comparison the source makes on
`mode`). -/
structure SelectProps where
  disabled : Bool
  readOnly : Bool
  periodicityOnDoubleClick : Bool
  modeIsSingle : Bool
deriving DecidableEq, Repr

/-- `doubleClick` (source lines 218-236): a no-op when disabled,
read-only, or `periodicityOnDoubleClick` is off; a no-op (early return)
when `Number(value)` is `NaN` — note the raw token, the `*/` prefix is
not stripped here; otherwise commits the single periodic token
`["*/N"]`.  Returns the `setValue` payload, if any; the caller clears
`clicksRef` in every double-click path (lines 233 and 252). -/
def doubleClick (p : SelectProps) (value : Token) : Option (List JsVal) :=
  if p.disabled || p.readOnly || !p.periodicityOnDoubleClick then none
  else
    match jsNumberRaw value with
    | none => none
    | some n => some [JsVal.str ("*/" ++ toString n)]

/-- The single-click branch of `onOptionClick` (source lines 254-281).
`sv` is the derived `stringValue` (source lines 67-95), a `String`; the
source computes `[...(Array.isArray(stringValue) ? stringValue : [])]`,
and `Array.isArray` of a string is always `false`, so the toggle base
`newValue` is always the empty array — the `splice` branch is therefore
unreachable.  A `NaN` parse returns before recording the click;
otherwise the click is appended to the buffer and a commit is emitted:
`[n]` in single mode, the toggled (always inserted) base otherwise. -/
def singleClickStep (p : SelectProps) (sv : String) (token : Token) (now : Int)
    (clicks : List ClickEntry) : List ClickEntry × Option (List JsVal) :=
  match jsNumberStripped token with
  | none => (clicks, none)
  | some n =>
    let commit :=
      if p.modeIsSingle then some [JsVal.num n]
      else
        let newValue : List Int := []
        if newValue.contains n then some ((newValue.erase n).map JsVal.num)
        else some ((newValue ++ [n]).map JsVal.num)
    (clicks ++ [⟨token, now⟩], commit)

/-- `onOptionClick` (source lines 239-285): disabled/read-only is a no-op;
when the last buffered click carries the same token string and arrived
less than 300 ms ago, the gesture is a double click (buffer cleared,
`doubleClick` decides the commit); otherwise the single-click branch
runs.  Token equality models string equality of `option.value` (distinct
tokens have distinct strings). -/
def onOptionClick (p : SelectProps) (sv : String) (token : Token) (now : Int)
    (clicks : List ClickEntry) : List ClickEntry × Option (List JsVal) :=
  if p.disabled || p.readOnly then (clicks, none)
  else
    match clicks.getLast? with
    | some lastClick =>
      if lastClick.value = token ∧ now - lastClick.timestamp < 300 then
        ([], doubleClick p token)
      else singleClickStep p sv token now clicks
    | none => singleClickStep p sv token now clicks

/-- Run a timestamped click stream through `onOptionClick`, collecting
every `setValue` commit in order.  The `stringValue` closure is
recomputed per render in the source, but it is only ever inspected
through `Array.isArray` (false for every string), so one representative
`sv` suffices — see `onOptionClick_sv_irrelevant`. -/
def runClicks (p : SelectProps) (sv : String) :
    List (Token × Int) → List ClickEntry → List ClickEntry × List (List JsVal)
  | [], clicks => (clicks, [])
  | (t, now) :: rest, clicks =>
    let step := onOptionClick p sv t now clicks
    let res := runClicks p sv rest step.1
    (res.1, step.2.toList ++ res.2)

/-- Modelled from the spec: the Selection Mutator's normalization (§4.4
post-condition; the mutator helpers live outside `src/`): a discrete
selection whose size equals the unit's total count collapses to the
empty selection. -/
def normalize (s : List Int) (u : CronUnit) : List Int :=
  if (s.length : Int) = u.max - u.min + 1 then [] else s

/-- Split a character list on a separator character (the pieces do not
contain the separator; n separators yield n+1 pieces). -/
def splitChar (sep : Char) : List Char → List (List Char)
  | [] => [[]]
  | c :: cs =>
    let r := splitChar sep cs
    if c = sep then [] :: r
    else
      match r with
      | [] => [[c]]
      | h :: t => (c :: h) :: t

/-- Read an unsigned decimal numeral, most significant digit first. -/
def readNatAux (acc : Nat) : List Char → Option Nat
  | [] => some acc
  | c :: cs => if c.isDigit then readNatAux (acc * 10 + (c.toNat - 48)) cs else none

/-- Read a decimal integer with an optional leading minus sign. -/
def readIntChars : List Char → Option Int
  | [] => none
  | c :: cs =>
    if c = '-' then
      match cs with
      | [] => none
      | _ => (readNatAux 0 cs).map (fun n => -(n : Int))
    else (readNatAux 0 (c :: cs)).map (fun n => (n : Int))

/-- `some rest` when `pre` is a prefix of `l`, where `rest` is what
follows the prefix. -/
def dropPrefixChars : List Char → List Char → Option (List Char)
  | [], l => some l
  | _ :: _, [] => none
  | p :: ps, c :: cs => if c = p then dropPrefixChars ps cs else none

/-- Modelled from the spec: one comma-separated part without a step —
either a decimal value or a range `a-b` (§4.1 rule 6). -/
def parseRangePart (p : List Char) : List Int :=
  match splitChar '-' p with
  | [single] =>
    match readIntChars single with
    | some n => [n]
    | none => []
  | [a, b] =>
    match readIntChars a, readIntChars b with
    | some x, some y => stepRange x y 1
    | _, _ => []
  | _ => []

/-- Modelled from the spec: one comma-separated part, possibly carrying a
step `a-b/d` (§4.1 rule 5). -/
def parsePart (p : List Char) : List Int :=
  match splitChar '/' p with
  | [body] => parseRangePart body
  | [body, stepStr] =>
    (match splitChar '-' body, readIntChars stepStr with
     | [a, b], some d =>
       (match readIntChars a, readIntChars b with
        | some x, some y => stepRange x y d
        | _, _ => [])
     | _, _ => [])
  | _ => []

/-- Modelled from the spec: `parsePartArray` is imported from
`../converter`, which is not under `src/`.  Per §4.1's round-trip law and
the glossary, `every N` denotes the derived discrete set "every `N`
units from the domain minimum", `a-b/d` the arithmetic progression from
`a` to `b` with step `d`, `a-b` the full range, and a comma list the
union of its parts. -/
def specParse (s : String) (u : CronUnit) : List Int :=
  match dropPrefixChars "every ".data s.data with
  | some rest =>
    (match readIntChars rest with
     | some n => stepRange u.min u.max n
     | none => [])
  | none => ((splitChar ',' s.data).map parsePart).flatten

/-- `unit` for week days: `{min: 0, max: 6}`. -/
def weekDaysUnit : CronUnit := ⟨.weekDays, 0, 6⟩

/-- `unit` for month days: `{min: 1, max: 31}`. -/
def monthDaysUnit : CronUnit := ⟨.monthDays, 1, 31⟩

/-- `unit` for minutes: `{min: 0, max: 59}`. -/
def minutesUnit : CronUnit := ⟨.minutes, 0, 59⟩

/-- `unit` for hours: `{min: 0, max: 23}`. -/
def hoursUnit : CronUnit := ⟨.hours, 0, 23⟩

/-- Default formatting props: `humanizeLabels`, `leadingZero` and
`clockFormat` all left unset. -/
def defaultConfig : SelectConfig := ⟨false, .undef, none⟩

/-- An enabled multiple-mode control with `periodicityOnDoubleClick`. -/
def multiProps : SelectProps := ⟨false, false, true, false⟩

/-- `onOptionClick` never depends on the derived `stringValue`: it is
only inspected through `Array.isArray`, which is false for every
string. -/
theorem onOptionClick_sv_irrelevant (p : SelectProps) (a b : String) (t : Token)
    (now : Int) (clicks : List ClickEntry) :
    onOptionClick p a t now clicks = onOptionClick p b t now clicks := rfl

/-- The arithmetic progression `start, start+d, …, start+d*(k-1)` — the
explicit discrete set of §4.1 rule 5. -/
def apList (start d : Int) (k : Nat) : List Int :=
  (List.range k).map (fun i : Nat => start + d * (i : Int))

theorem apList_length (s d : Int) (k : Nat) : (apList s d k).length = k := by
  simp [apList]

theorem apList_succ (s d : Int) (k : Nat) :
    apList s d (k + 1) = s :: apList (s + d) d k := by
  unfold apList
  rw [List.range_succ_eq_map, List.map_cons, List.map_map]
  refine congrArg₂ List.cons (by simp) ?_
  congr 1
  funext i
  simp only [Function.comp]
  push_cast
  ring

theorem mem_apList {b s d : Int} {k : Nat} :
    b ∈ apList s d k ↔ ∃ i : Nat, i < k ∧ b = s + d * (i : Int) := by
  simp only [apList, List.mem_map, List.mem_range]
  constructor
  · rintro ⟨i, hi, rfl⟩
    exact ⟨i, hi, rfl⟩
  · rintro ⟨i, hi, rfl⟩
    exact ⟨i, hi, rfl⟩

theorem apList_getLastD (d : Int) :
    ∀ (k : Nat) (s e : Int), 1 ≤ k → (apList s d k).getLastD e = s + d * ((k : Int) - 1)
  | 0, _, _, h => by omega
  | 1, s, e, _ => by
    have h1 : apList s d 1 = [s] := by
      rw [show (1 : Nat) = 0 + 1 from rfl, apList_succ]
      simp [apList]
    rw [h1]
    simp
  | (k + 2), s, e, _ => by
    rw [apList_succ, List.getLastD_cons,
      apList_getLastD d (k + 1) (s + d) s (by omega)]
    push_cast
    ring

theorem apList_sorted (d : Int) (hd : 0 ≤ d) :
    ∀ (k : Nat) (s : Int), List.Sorted (· ≤ ·) (apList s d k)
  | 0, _ => by simp [apList]
  | (k + 1), s => by
    rw [apList_succ, List.sorted_cons]
    refine ⟨?_, apList_sorted d hd k (s + d)⟩
    intro b hb
    rcases mem_apList.mp hb with ⟨i, _, rfl⟩
    have hdi : 0 ≤ d * (i : Int) := mul_nonneg hd (by positivity)
    linarith

theorem sortValues_apList (s d : Int) (k : Nat) (hd : 0 ≤ d) :
    sortValues (apList s d k) = apList s d k := by
  unfold sortValues
  exact List.Sorted.insertionSort_eq (apList_sorted d hd k s)

theorem stepRange_eq_apList (s d : Int) (m : Nat) (hd : 1 ≤ d) :
    stepRange s (s + d * (m : Int)) d = apList s d (m + 1) := by
  have hdm : 0 ≤ d * (m : Int) := mul_nonneg (by omega) (by positivity)
  unfold stepRange
  rw [if_neg (by omega), if_neg (by simp only [not_lt]; linarith)]
  have h1 : s + d * (m : Int) - s = d * (m : Int) := by ring
  rw [h1]
  have h2 : (d * (m : Int)).toNat = d.toNat * m := by
    rcases Int.eq_ofNat_of_zero_le (show (0 : Int) ≤ d by omega) with ⟨a, rfl⟩
    rw [← Nat.cast_mul, Int.toNat_natCast]
    simp
  rw [h2, Nat.mul_div_cancel_left m (by omega)]
  rfl

theorem hci_apList (s d : Int) (m : Nat) (hd : 2 ≤ d) :
    hasConsistentInterval (apList s d (m + 3)) =
      ⟨true, d, s, s + d * ((m : Int) + 2)⟩ := by
  have hexp : apList s d (m + 3) = s :: (s + d) :: (s + d + d) :: apList (s + d + d + d) d m := by
    rw [apList_succ, apList_succ, apList_succ]
  have hlast : (s :: (s + d) :: (s + d + d) :: apList (s + d + d + d) d m).getLastD 0
      = s + d * ((m : Int) + 2) := by
    rw [← hexp, apList_getLastD d (m + 3) s 0 (by omega)]
    push_cast
    ring
  have hsr : stepRange s (s + d * ((m : Int) + 2)) ((s + d) - s) = apList s d (m + 3) := by
    have h := stepRange_eq_apList s d (m + 2) (by omega)
    rw [show ((s + d) - s) = d by ring]
    rw [show ((m : Int) + 2) = ((m + 2 : Nat) : Int) by push_cast; ring]
    exact h
  rw [hexp]
  unfold hasConsistentInterval
  simp only []
  rw [if_neg (by omega)]
  rw [hlast, hsr, ← hexp]
  simp only [decide_eq_true_eq]
  have : ((s + d) - s) = d := by ring
  rw [this]
  simp

/-- Claim C1 (code bug): the claim says a multiple-mode `Toggle(v)` removes
`v` from the selection when present and otherwise inserts it, preserving
the prior members.  The code instead always starts from the empty base
(`Array.isArray(stringValue)` is false for a string), so a single click on
token `3` with current selection `[2]` commits `[3]` — the prior member
`2` is discarded and the removal branch is unreachable. -/
theorem toggle_multiple_discards_selection (sv : String) (t : Int) :
    onOptionClick multiProps sv (Token.num 3) t [] = ([⟨Token.num 3, t⟩], some [JsVal.num 3])
      ∧ some [JsVal.num 3] ≠ some [JsVal.num 2, JsVal.num 3] := by
  constructor
  · simp [onOptionClick, singleClickStep, multiProps, jsNumberStripped]
  · decide

/-- Claim C2 counterexample: two clicks on token `5` 100 ms apart with
`periodicityOnDoubleClick` enabled produce TWO commits — a toggle commit
`[5]` from the first click and the periodic commit `["*/5"]` from the
second — not exactly one `PeriodicReplace` with zero `Toggle` actions
and a single commit. -/
theorem double_click_pair_two_commits :
    (runClicks multiProps "" [(Token.num 5, 0), (Token.num 5, 100)] []).2 =
      [[JsVal.num 5], [JsVal.str "*/5"]]
      ∧ ((runClicks multiProps "" [(Token.num 5, 0), (Token.num 5, 100)] []).2).length ≠ 1 := by
  decide

/-- Claim C2 (as amended): for every token with numeric value `n ≥ 2` on an
enabled multiple-mode control with `periodicityOnDoubleClick`, two clicks
100 ms apart commit twice — the first click immediately commits its
single-click result `[n]`, the second commits the periodic token
`["*/n"]` and clears the click buffer; two clicks 400 ms apart commit the
single-click result `[n]` twice (the toggle base is always empty), so the
net effect is the selection `[n]`, not a no-op restoration. -/
theorem click_pair_timing_behavior (sv : String) (n t0 : Int) (hn : 2 ≤ n) :
    runClicks multiProps sv [(Token.num n, t0), (Token.num n, t0 + 100)] [] =
        ([], [[JsVal.num n], [JsVal.str ("*/" ++ toString n)]])
      ∧ runClicks multiProps sv [(Token.num n, t0), (Token.num n, t0 + 400)] [] =
        ([⟨Token.num n, t0⟩, ⟨Token.num n, t0 + 400⟩], [[JsVal.num n], [JsVal.num n]]) := by
  constructor
  · simp [runClicks, onOptionClick, singleClickStep, doubleClick, multiProps,
      jsNumberStripped, jsNumberRaw, add_sub_cancel_left]
  · simp [runClicks, onOptionClick, singleClickStep, doubleClick, multiProps,
      jsNumberStripped, jsNumberRaw, add_sub_cancel_left]

/-- Claim C2 witness: the amended behaviour at token `5`, start time 0. -/
theorem click_pair_timing_behavior_witness :
    (2 : Int) ≤ 5
      ∧ runClicks multiProps "" [(Token.num 5, 0), (Token.num 5, 100)] [] =
        ([], [[JsVal.num 5], [JsVal.str "*/5"]])
      ∧ runClicks multiProps "" [(Token.num 5, 0), (Token.num 5, 400)] [] =
        ([⟨Token.num 5, 0⟩, ⟨Token.num 5, 400⟩], [[JsVal.num 5], [JsVal.num 5]]) := by
  have h := click_pair_timing_behavior "" 5 0 (by norm_num)
  exact ⟨by norm_num, h.1, h.2⟩

/-- Claim C3 counterexample: the double-click handler commits the literal
periodic token selection `["*/5"]`, not the discrete set
`{1, 6, 11, 16, 21, 26, 31}` the claim requires for unit `{min 1, max 31}`. -/
theorem periodic_commit_token_not_set :
    doubleClick multiProps (Token.num 5) = some [JsVal.str "*/5"]
      ∧ some [JsVal.str "*/5"]
        ≠ some (([1, 6, 11, 16, 21, 26, 31] : List Int).map JsVal.num) := by
  decide

/-- Claim C3 (as amended): `PeriodicReplace(step)` commits the literal
single-token selection `["*/step"]`, replacing the previous selection
wholesale, with no expansion to a discrete set, no comparison against the
current selection, and no full-domain emptying; independently, formatting
the discrete set `{1, 6, 11, 16, 21, 26, 31}` for unit `{min 1, max 31}`
does yield `"1-31/5"`. -/
theorem double_click_commits_token_and_anchor_format (n : Int) :
    doubleClick multiProps (Token.num n) = some [JsVal.str ("*/" ++ toString n)]
      ∧ displayFormat [1, 6, 11, 16, 21, 26, 31] monthDaysUnit defaultConfig DEFAULT_LOCALE_EN
        = "1-31/5" := by
  constructor
  · simp [doubleClick, multiProps, jsNumberRaw]
  · decide

/-- Claim C4 counterexample: seven single-click toggles on tokens `0..6`
of the week-days unit end with the committed selection `[6]`, not the
empty selection the claim's normalization requires. -/
theorem seven_toggles_not_empty :
    (runClicks multiProps "" [(Token.num 0, 0), (Token.num 1, 1000), (Token.num 2, 2000),
        (Token.num 3, 3000), (Token.num 4, 4000), (Token.num 5, 5000),
        (Token.num 6, 6000)] []).2.getLast? = some [JsVal.num 6]
      ∧ some [JsVal.num 6] ≠ some ([] : List JsVal) := by
  decide

/-- Claim C4 (as amended): no full-selection normalization exists — seven
`Toggle` actions on `{0..6}` commit `[0]`, `[1]`, …, `[6]` in turn (each
toggle replaces the selection because the base is always empty), ending
at `[6]`; the empty selection does format to the unit's configured
empty-placeholder text whenever that text is nonempty. -/
theorem no_full_selection_normalization :
    (runClicks multiProps "" [(Token.num 0, 0), (Token.num 1, 1000), (Token.num 2, 2000),
        (Token.num 3, 3000), (Token.num 4, 4000), (Token.num 5, 5000),
        (Token.num 6, 6000)] []).2 =
      [[JsVal.num 0], [JsVal.num 1], [JsVal.num 2], [JsVal.num 3], [JsVal.num 4],
        [JsVal.num 5], [JsVal.num 6]]
      ∧ ∀ loc : Locale, loc.emptyWeekDays ≠ "" →
        displayFormat [] weekDaysUnit defaultConfig loc = loc.emptyWeekDays := by
  constructor
  · decide
  · intro loc h
    simp [displayFormat, weekDaysUnit, jsOr, h]

/-- Claim C4 witness: the placeholder part at the default English locale. -/
theorem no_full_selection_normalization_witness :
    DEFAULT_LOCALE_EN.emptyWeekDays ≠ ""
      ∧ displayFormat [] weekDaysUnit defaultConfig DEFAULT_LOCALE_EN
        = DEFAULT_LOCALE_EN.emptyWeekDays :=
  ⟨by decide, no_full_selection_normalization.2 DEFAULT_LOCALE_EN (by decide)⟩

/-- Claim C5 (code bug): the claim says two separately resolved `Toggle(5)`
gestures restore the original selection.  In the code each resolved toggle
commits `[5]` regardless of the current selection (the toggle base is
always the empty array), so starting from the empty selection the final
committed selection is `[5]`, not the original `[]`. -/
theorem toggle_twice_not_restoring (sv : String) :
    runClicks multiProps sv [(Token.num 5, 0), (Token.num 5, 400)] [] =
        ([⟨Token.num 5, 0⟩, ⟨Token.num 5, 400⟩], [[JsVal.num 5], [JsVal.num 5]])
      ∧ [JsVal.num 5] ≠ ([] : List JsVal) := by
  constructor
  · simp [runClicks, onOptionClick, singleClickStep, doubleClick, multiProps,
      jsNumberStripped, jsNumberRaw]
  · decide

/-- Claim C6 counterexample: the round-trip law fails — the week-days
selection `[1, 3, 5]` formats to `"every 2"` (rule 5's degenerate case),
which the spec-modelled parse reads back as the derived periodic set
`[0, 2, 4, 6]`, not `normalize [1, 3, 5] = [1, 3, 5]`. -/
theorem roundtrip_fails_weekdays_every2 :
    specParse (displayFormat [1, 3, 5] weekDaysUnit defaultConfig DEFAULT_LOCALE_EN) weekDaysUnit
      ≠ normalize [1, 3, 5] weekDaysUnit := by
  decide

/-- Claim C6 (as amended): `format` is not injective up to normalization —
the distinct non-full week-days selections `[1, 3, 5]` and `[0, 2, 4, 6]`
both format to `"every 2"`, so no parse function can satisfy
`parse (format S) = normalize S` on all of rules 1–6; the law does hold on
rule 6's comma/range form, e.g. `[1, 2, 3, 7, 8, 10]` on minutes formats
to `"1-3,7-8,10"` and parses back to itself. -/
theorem format_collision_and_comma_roundtrip :
    displayFormat [1, 3, 5] weekDaysUnit defaultConfig DEFAULT_LOCALE_EN = "every 2"
      ∧ displayFormat [0, 2, 4, 6] weekDaysUnit defaultConfig DEFAULT_LOCALE_EN = "every 2"
      ∧ normalize [1, 3, 5] weekDaysUnit ≠ normalize [0, 2, 4, 6] weekDaysUnit
      ∧ specParse (displayFormat [1, 2, 3, 7, 8, 10] minutesUnit defaultConfig DEFAULT_LOCALE_EN)
          minutesUnit
        = normalize [1, 2, 3, 7, 8, 10] minutesUnit := by
  decide

/-- Claim C7 counterexample: for the month-days unit (which does not
support periodicity per the claim) the singleton selection `[5]` formats
as `"every 5"`, not as the bare rendered value `"5"`. -/
theorem single_monthday_renders_every :
    displayFormat [5] monthDaysUnit defaultConfig DEFAULT_LOCALE_EN = "every 5"
      ∧ formatValueLocal 5 monthDaysUnit defaultConfig DEFAULT_LOCALE_EN = "5"
      ∧ ("every 5" : String) ≠ "5" := by
  decide

/-- Claim C7 (as amended): a selection holding exactly one discrete value
`v` renders as `every {renderValue(v)}` precisely when `v > 1`, for every
unit kind — the code performs no unit-kind check; when `v ≤ 1` it renders
as `renderValue(v)` alone. -/
theorem single_value_display_rule (v : Int) (u : CronUnit) (c : SelectConfig) (loc : Locale) :
    displayFormat [v] u c loc =
      if v > 1 then "every " ++ formatValueLocal v u c loc
      else formatValueLocal v u c loc := by
  simp [displayFormat]

/-- Claim C8 counterexample: double-clicking token `1` within the window
with double-click-periodicity enabled commits the periodic selection
`["*/1"]` — the claimed 0/1 exception (fall back to a plain `Toggle`, no
`PeriodicReplace`) does not exist in the code. -/
theorem double_click_token_one_periodic :
    (runClicks multiProps "" [(Token.num 1, 0), (Token.num 1, 100)] []).2 =
      [[JsVal.num 1], [JsVal.str "*/1"]]
      ∧ ([JsVal.str "*/1"] : List JsVal) ≠ [JsVal.num 1] := by
  decide

/-- Claim C8 (as amended): when two clicks on the same numeric token land
within 300 ms with double-click-periodicity enabled, the second click
commits the periodic selection `["*/N"]` for `N = Number(token)` — for
every integer `N`, including 0 and 1; no `Toggle` is substituted (the
first click has already committed its own single-click result). -/
theorem double_click_window_always_periodic (sv : String) (n t0 dt : Int) (h : dt < 300) :
    runClicks multiProps sv [(Token.num n, t0), (Token.num n, t0 + dt)] [] =
      ([], [[JsVal.num n], [JsVal.str ("*/" ++ toString n)]]) := by
  simp [runClicks, onOptionClick, singleClickStep, doubleClick, multiProps,
    jsNumberStripped, jsNumberRaw, add_sub_cancel_left, h]

/-- Claim C8 witness: the amended behaviour at token `1` (the value the
claim exempts), clicks at 0 ms and 100 ms. -/
theorem double_click_window_always_periodic_witness :
    (100 : Int) < 300
      ∧ runClicks multiProps "" [(Token.num 1, 0), (Token.num 1, 100)] [] =
        ([], [[JsVal.num 1], [JsVal.str "*/1"]]) := by
  have h := double_click_window_always_periodic "" 1 0 100 (by norm_num)
  exact ⟨by norm_num, h⟩

/-- Claim C9 (confirmed): for every arithmetic progression of `k ≥ 3`
values with common difference `d ≥ 2` (exactly covering `[first, last]` by
construction), the display formatter returns
`{renderValue(first)}-{renderValue(last)}/{d}` — except for the hours and
week-days units when `d = 2`, where it returns the literal `"every 2"`. -/
theorem ap_progression_format (u : CronUnit) (c : SelectConfig) (loc : Locale)
    (s d : Int) (k : Nat) (hk : 3 ≤ k) (hd : 2 ≤ d) :
    displayFormat (apList s d k) u c loc =
      if (u.type = CronType.hours ∨ u.type = CronType.weekDays) ∧ d = 2 then "every 2"
      else
        formatValueLocal s u c loc ++ "-"
          ++ formatValueLocal (s + d * ((k : Int) - 1)) u c loc ++ "/" ++ toString d := by
  obtain ⟨m, rfl⟩ : ∃ m, k = m + 3 := ⟨k - 3, by omega⟩
  have hne : apList s d (m + 3) ≠ [] := by
    intro h
    have hl := congrArg List.length h
    simp [apList_length] at hl
  have hlen1 : ((apList s d (m + 3)).length = 1) = False := by
    simp [apList_length]
  have hsv : sortValues (apList s d (m + 3)) = apList s d (m + 3) :=
    sortValues_apList s d (m + 3) (by omega)
  have hhci := hci_apList s d m hd
  have hcast : ((m : Int) + 2) = (((m + 3 : Nat)) : Int) - 1 := by push_cast; ring
  unfold displayFormat
  rw [if_neg hne]
  simp only [hlen1, if_false, hsv, hhci]
  rw [hcast]
  split_ifs with h1 h2 h3 <;> first | rfl | tauto

/-- Claim C9 witness: the month-days progression `1, 6, …, 31` (`d = 5`,
`k = 7`) formats as `"1-31/5"`. -/
theorem ap_progression_format_witness :
    3 ≤ 7 ∧ (2 : Int) ≤ 5
      ∧ displayFormat (apList 1 5 7) monthDaysUnit defaultConfig DEFAULT_LOCALE_EN = "1-31/5" := by
  refine ⟨by norm_num, by norm_num, ?_⟩
  have h := ap_progression_format monthDaysUnit defaultConfig DEFAULT_LOCALE_EN 1 5 7
    (by norm_num) (by norm_num)
  rw [h]
  decide

/-- Claim C10 (confirmed): with `periodicityOnDoubleClick` enabled, a
second click on a periodic pseudo-option `*/N` within the 300 ms window
commits nothing — `Number("*/N")` is `NaN`, `doubleClick` returns before
`setValue`, and the click buffer is cleared — while a single click on the
same pseudo-option does commit the toggled value `[N]`. -/
theorem periodic_pseudo_option_gesture (sv : String) (n t0 dt : Int) (h : dt < 300) :
    onOptionClick multiProps sv (Token.periodic n) (t0 + dt) [⟨Token.periodic n, t0⟩]
        = ([], none)
      ∧ onOptionClick multiProps sv (Token.periodic n) t0 []
        = ([⟨Token.periodic n, t0⟩], some [JsVal.num n]) := by
  constructor
  · simp [onOptionClick, singleClickStep, doubleClick, multiProps, jsNumberRaw,
      add_sub_cancel_left, h]
  · simp [onOptionClick, singleClickStep, multiProps, jsNumberStripped]

/-- Claim C10 witness: the pseudo-option `*/3`, second click 100 ms after
the first. -/
theorem periodic_pseudo_option_gesture_witness :
    (100 : Int) < 300
      ∧ onOptionClick multiProps "" (Token.periodic 3) 100 [⟨Token.periodic 3, 0⟩] = ([], none)
      ∧ onOptionClick multiProps "" (Token.periodic 3) 0 []
        = ([⟨Token.periodic 3, 0⟩], some [JsVal.num 3]) := by
  have h := periodic_pseudo_option_gesture "" 3 0 100 (by norm_num)
  exact ⟨by norm_num, h.1, h.2⟩

end ReactJsCron
